import Mathlib

/-!
Shallow embedding of the autotune-real-time-audio-tuner core
(quantizer, pitch detector, pitch corrector, ring buffer, engine driver),
translated from the C++ sources.  Audio samples and frequencies are
32-bit floats in the source; the embedding idealizes them as real
numbers with exact arithmetic.  Machine integers (uint32_t, int) become
Nat/Int; `static_cast` of a nonnegative float to an unsigned integer is
modelled as `Int.toNat ∘ Int.floor`.
-/

namespace Autotune

/-- Model of `std::abs` on floats: absolute value via a sign test. -/
noncomputable def fabs (x : ℝ) : ℝ := if x < 0 then -x else x

/-- Model of `std::clamp(v, lo, hi)`: `v < lo ? lo : hi < v ? hi : v`. -/
noncomputable def clampR (v lo hi : ℝ) : ℝ := if v < lo then lo else if hi < v then hi else v

/-- `struct ProcessingResult` from audio_types.h, with its default field values. -/
structure ProcessingResult where
  success : Bool := false
  detected_pitch : ℝ := 0
  corrected_pitch : ℝ := 0
  confidence : ℝ := 0
  latency_samples : ℕ := 0

/-- `enum class Quantizer::Scale` from quantizer.h. -/
inductive Scale where
  | CHROMATIC
  | MAJOR
  | MINOR
  | PENTATONIC
  | BLUES
  | DORIAN
  | MIXOLYDIAN
  | CUSTOM
deriving DecidableEq

/-- The immutable `scale_intervals_` table filled in by `Quantizer::initialize_scales`
(indices 0..7: chromatic, major, minor, pentatonic, blues, dorian, mixolydian,
custom-initialized-empty). -/
def scale_intervals_table : ℕ → List ℤ
  | 0 => [0, 1, 2, 3, 4, 5, 6, 7, 8, 9, 10, 11]
  | 1 => [0, 2, 4, 5, 7, 9, 11]
  | 2 => [0, 2, 3, 5, 7, 8, 10]
  | 3 => [0, 2, 4, 7, 9]
  | 4 => [0, 3, 5, 6, 7, 10]
  | 5 => [0, 2, 3, 5, 7, 9, 10]
  | 6 => [0, 2, 4, 5, 7, 9, 10]
  | _ => []

/-- Mutable state of a `Quantizer` relevant to the pitch path: the
client-supplied custom scale (`custom_scale_intervals_`).  The timing
state (tempo, time signature, samples-per-beat) is independent of pitch
quantization and is not needed by any pitch-path operation. -/
structure Quantizer where
  custom_scale_intervals : List ℤ := []
deriving DecidableEq

/-- `Quantizer::set_custom_scale`: stores the intervals and sorts them
ascending (`std::sort`). Nothing else is done: no deduplication, no
mod-12 reduction. -/
def Quantizer.set_custom_scale (q : Quantizer) (intervals : List ℤ) : Quantizer :=
  { q with custom_scale_intervals := intervals.insertionSort (· ≤ ·) }

/-- `Quantizer::get_scale_intervals`. -/
def Quantizer.get_scale_intervals (q : Quantizer) (scale : Scale) : List ℤ :=
  match scale with
  | .CHROMATIC => scale_intervals_table 0
  | .MAJOR => scale_intervals_table 1
  | .MINOR => scale_intervals_table 2
  | .PENTATONIC => scale_intervals_table 3
  | .BLUES => scale_intervals_table 4
  | .DORIAN => scale_intervals_table 5
  | .MIXOLYDIAN => scale_intervals_table 6
  | .CUSTOM => q.custom_scale_intervals

/-- Static `Quantizer::frequency_to_midi`:
`frequency <= 0 ? 0 : 69 + 12 * log2(frequency / 440)`. -/
noncomputable def frequency_to_midi (frequency : ℝ) : ℝ :=
  if frequency ≤ 0 then 0 else 69 + 12 * Real.logb 2 (frequency / 440)

/-- Static `Quantizer::midi_to_frequency`: `440 * pow(2, (midi - 69) / 12)`. -/
noncomputable def midi_to_frequency (midi_note : ℝ) : ℝ :=
  440 * (2 : ℝ) ^ ((midi_note - 69) / 12)

/-- One iteration of the scan loop in `Quantizer::find_nearest_scale_note`:
given the current `(nearest_interval, min_distance)` pair, consider the
interval itself and the interval one octave above, each with a strict
improvement test. -/
noncomputable def nearest_scan_step (note_in_octave : ℝ) (acc : ℝ × ℝ) (interval : ℤ) : ℝ × ℝ :=
  let acc1 :=
    if fabs (note_in_octave - interval) < acc.2 then
      ((interval : ℝ), fabs (note_in_octave - interval))
    else acc
  if fabs (note_in_octave - ((interval : ℝ) + 12)) < acc1.2 then
    ((interval : ℝ) + 12, fabs (note_in_octave - ((interval : ℝ) + 12)))
  else acc1

/-- `Quantizer::find_nearest_scale_note`. -/
noncomputable def find_nearest_scale_note (midi_note : ℝ) (intervals : List ℤ)
    (key_center : ℤ) : ℝ :=
  match intervals with
  | [] => midi_note
  | i0 :: _ =>
    let relative_note := midi_note - key_center
    let octave : ℤ := ⌊relative_note / 12⌋
    let note_in_octave := relative_note - octave * 12
    let best :=
      (intervals.foldl (nearest_scan_step note_in_octave)
        ((i0 : ℝ), fabs (note_in_octave - i0))).1
    key_center + octave * 12 + best

/-- `Quantizer::quantize_pitch`. -/
noncomputable def Quantizer.quantize_pitch (q : Quantizer) (input_pitch : ℝ) (scale : Scale)
    (key_center : ℤ) (strength : ℝ) : ℝ :=
  if input_pitch ≤ 0 ∨ strength ≤ 0 then input_pitch
  else
    let input_midi := frequency_to_midi input_pitch
    let intervals := q.get_scale_intervals scale
    let quantized_midi := find_nearest_scale_note input_midi intervals key_center
    let result_midi := input_midi + strength * (quantized_midi - input_midi)
    midi_to_frequency result_midi

/-- `struct Note` from audio_types.h. -/
structure Note where
  frequency : ℝ
  midi_note : ℤ
  cents : ℝ

/-- Truncation toward zero, the behaviour of `static_cast<int>` on a float. -/
noncomputable def truncToInt (x : ℝ) : ℤ := if x < 0 then -⌊-x⌋ else ⌊x⌋

/-- `Quantizer::get_nearest_note`. -/
noncomputable def Quantizer.get_nearest_note (q : Quantizer) (input_pitch : ℝ) (scale : Scale)
    (key_center : ℤ) : Note :=
  if input_pitch ≤ 0 then ⟨0, 0, 0⟩
  else
    let input_midi := frequency_to_midi input_pitch
    let intervals := q.get_scale_intervals scale
    let quantized_midi := find_nearest_scale_note input_midi intervals key_center
    let quantized_freq := midi_to_frequency quantized_midi
    let cents := 1200 * Real.logb 2 (input_pitch / quantized_freq)
    ⟨quantized_freq, truncToInt quantized_midi, cents⟩

/-! ### PitchDetector (pitch_detector.h / pitch_detector.cpp) -/

/-- The Hann window precomputed in the `PitchDetector` constructor:
`w[i] = 0.5 * (1 - cos(2*pi*i / (buffer_size - 1)))` for `i < buffer_size`. -/
noncomputable def hanning_window (buffer_size : ℕ) : List ℝ :=
  (List.range buffer_size).map fun (i : ℕ) =>
    (1 / 2) * (1 - Real.cos (2 * Real.pi * (i : ℝ) / ((buffer_size : ℝ) - 1)))

/-- State of a `PitchDetector`: configuration plus the previous-pitch
register used for smoothing and the precomputed Hann window.  The
scratch buffers `windowed_buffer_` / `autocorr_buffer_` hold no
information across calls that any operation reads, so they are not part
of the state. -/
structure PitchDetector where
  sample_rate : ℕ
  buffer_size : ℕ
  min_frequency : ℝ
  max_frequency : ℝ
  confidence_threshold : ℝ
  previous_pitch : ℝ
  pitch_smoothing_factor : ℝ
  window : List ℝ

/-- The `PitchDetector` constructor: defaults 80 Hz / 2000 Hz / 0.3
threshold / 0.8 smoothing, previous pitch 0, Hann window precomputed. -/
noncomputable def mkPitchDetector (sample_rate buffer_size : ℕ) : PitchDetector :=
  { sample_rate := sample_rate
    buffer_size := buffer_size
    min_frequency := 80
    max_frequency := 2000
    confidence_threshold := 3 / 10
    previous_pitch := 0
    pitch_smoothing_factor := 8 / 10
    window := hanning_window buffer_size }

/-- `PitchDetector::apply_window`: `output[i] = input[i] * hanning_window_[i]`. -/
noncomputable def apply_window (d : PitchDetector) (input : List ℝ) : List ℝ :=
  input.zipWith (· * ·) d.window

/-- `PitchDetector::compute_autocorrelation`:
`output[lag] = sum_(i < size - lag) input[i] * input[i + lag]` for `lag < size`. -/
noncomputable def compute_autocorrelation (input : List ℝ) : List ℝ :=
  (List.range input.length).map fun lag =>
    ((List.range (input.length - lag)).map fun i =>
      input.getD i 0 * input.getD (i + lag) 0).sum

/-- The strict-improvement peak scan inside `PitchDetector::find_autocorr_peak`:
fold over the lags `min_lag + 1 .. max_lag`, keeping `(peak_lag, peak_value)`. -/
noncomputable def peak_scan (r : List ℝ) (lags : List ℕ) (acc : ℕ × ℝ) : ℕ × ℝ :=
  lags.foldl (fun acc lag => if acc.2 < r.getD lag 0 then (lag, r.getD lag 0) else acc) acc

/-- `PitchDetector::find_autocorr_peak`.  Returns `(peak_lag, confidence)`;
`(0, 0)` when the window is too small or the valid lag range is empty. -/
noncomputable def find_autocorr_peak (d : PitchDetector) (autocorr : List ℝ) (size : ℕ) :
    ℕ × ℝ :=
  if size < 2 then (0, 0)
  else
    let min_lag0 := (⌊(d.sample_rate : ℝ) / d.max_frequency⌋).toNat
    let max_lag0 := (⌊(d.sample_rate : ℝ) / d.min_frequency⌋).toNat
    let min_lag := max 1 (min min_lag0 (size - 1))
    let max_lag := min max_lag0 (size - 1)
    if min_lag ≥ max_lag then (0, 0)
    else
      let peak := peak_scan autocorr (List.range' (min_lag + 1) (max_lag - min_lag))
        (min_lag, autocorr.getD min_lag 0)
      let confidence :=
        if 0 < autocorr.getD 0 0 then clampR (peak.2 / autocorr.getD 0 0) 0 1 else 0
      (peak.1, confidence)

/-- `PitchDetector::lag_to_frequency`: `lag == 0 ? 0 : sample_rate / lag`. -/
noncomputable def lag_to_frequency (d : PitchDetector) (lag : ℕ) : ℝ :=
  if lag = 0 then 0 else (d.sample_rate : ℝ) / (lag : ℝ)

/-- `PitchDetector::smooth_pitch`: exponential smoothing with a cold-start
path; updates the previous-pitch register. -/
noncomputable def smooth_pitch (d : PitchDetector) (current_pitch : ℝ) : ℝ × PitchDetector :=
  if d.previous_pitch = 0 then
    (current_pitch, { d with previous_pitch := current_pitch })
  else
    let smoothed := d.pitch_smoothing_factor * d.previous_pitch +
      (1 - d.pitch_smoothing_factor) * current_pitch
    (smoothed, { d with previous_pitch := smoothed })

/-- `PitchDetector::detect_pitch(samples, sample_count, confidence)`.
Returns `(pitch, confidence, new state)`.  The null-pointer guard of the
source has no counterpart on lists; the `sample_count == 0` and
`sample_count > buffer_size_` guards are kept. -/
noncomputable def detect_pitch (d : PitchDetector) (samples : List ℝ) : ℝ × ℝ × PitchDetector :=
  let n := samples.length
  if n = 0 ∨ d.buffer_size < n then (0, 0, d)
  else
    let windowed := apply_window d samples
    let autocorr := compute_autocorrelation windowed
    let peak := find_autocorr_peak d autocorr n
    if peak.2 < d.confidence_threshold ∨ peak.1 = 0 then (0, 0, d)
    else
      let detected := lag_to_frequency d peak.1
      if detected < d.min_frequency ∨ d.max_frequency < detected then (0, 0, d)
      else
        let s := smooth_pitch d detected
        (s.1, peak.2, s.2)

/-! ### PitchCorrector (pitch_corrector.h / pitch_corrector.cpp) -/

/-- Persistent registers of a `PitchCorrector`: the fractional read index
(`phase_accumulator_`), the envelope follower (`envelope_follower_`), and
the attack/release coefficients computed by the constructor or
`set_parameters` (their values involve `exp` of the configured times; the
claims never depend on them, so they are carried as opaque state).
`overlap_size` is the constant `overlap_size_ = buffer_size * 2 / 4`
computed at construction and reported as latency. -/
structure PitchCorrector where
  phase_accumulator : ℝ
  envelope_follower : ℝ
  attack_coeff : ℝ
  release_coeff : ℝ
  overlap_size : ℕ

/-- `PitchCorrector::update_envelope`: attack/release one-pole follower;
returns the new envelope value and updates the register. -/
noncomputable def update_envelope (c : PitchCorrector) (input : ℝ) : ℝ × PitchCorrector :=
  let target := fabs input
  let env :=
    if c.envelope_follower < target then
      c.envelope_follower + c.attack_coeff * (target - c.envelope_follower)
    else
      c.envelope_follower + c.release_coeff * (target - c.envelope_follower)
  (env, { c with envelope_follower := env })

/-- `PitchCorrector::calculate_pitch_ratio`. -/
noncomputable def calculate_pitch_ratio (input_pitch target_pitch strength : ℝ) : ℝ :=
  if input_pitch ≤ 0 ∨ target_pitch ≤ 0 then 1
  else clampR (1 + strength * (target_pitch / input_pitch - 1)) (1 / 2) 2

/-- One output sample of `PitchCorrector::apply_psola_shift`: linear
interpolation at the phase accumulator, phase update with wrap to 0 at
`sample_count`, envelope follow on the input sample. -/
noncomputable def psola_sample (input : List ℝ) (sample_count : ℕ) (pitch_ratio : ℝ)
    (c : PitchCorrector) (x_i : ℝ) : ℝ × PitchCorrector :=
  let read_pos := c.phase_accumulator
  let read_index := (⌊read_pos⌋).toNat
  let fraction := read_pos - (read_index : ℝ)
  let interpolated :=
    if read_index < sample_count - 1 then
      input.getD read_index 0 * (1 - fraction) + input.getD (read_index + 1) 0 * fraction
    else if read_index < sample_count then input.getD read_index 0
    else 0
  let phase := read_pos + pitch_ratio
  let phase := if (sample_count : ℝ) ≤ phase then 0 else phase
  let c := { c with phase_accumulator := phase }
  let e := update_envelope c (fabs x_i)
  (interpolated * e.1, e.2)

/-- `PitchCorrector::apply_psola_shift`: runs `psola_sample` over the block.
Returns the output block and the updated state (the function itself
always returns `true` in the source). -/
noncomputable def apply_psola_shift (c : PitchCorrector) (input : List ℝ)
    (pitch_ratio : ℝ) : List ℝ × PitchCorrector :=
  let n := input.length
  input.foldl (fun acc x_i =>
    let s := psola_sample input n pitch_ratio acc.2 x_i
    (acc.1 ++ [s.1], s.2)) ([], c)

/-- Sample-level `PitchCorrector::correct_pitch`.  Returns
`(output, result, new state)`.  The null-pointer guards of the source
have no counterpart on lists; `sample_count == 0` (empty input) fails. -/
noncomputable def correct_pitch (c : PitchCorrector) (input : List ℝ)
    (input_pitch target_pitch correction_strength : ℝ) :
    List ℝ × ProcessingResult × PitchCorrector :=
  if input.length = 0 then ([], { success := false }, c)
  else
    let result0 : ProcessingResult :=
      { detected_pitch := input_pitch, corrected_pitch := target_pitch }
    if input_pitch ≤ 0 ∨ correction_strength ≤ 0 then
      (input, { result0 with success := true, confidence := 0 }, c)
    else
      let pitch_ratio := calculate_pitch_ratio input_pitch target_pitch correction_strength
      let shifted := apply_psola_shift c input pitch_ratio
      (shifted.1,
        { result0 with
          success := true
          confidence := 8 / 10
          latency_samples := c.overlap_size },
        shifted.2)

/-- Frame-level `PitchCorrector::correct_pitch`: processes channel 0 of
the frame through the sample-level path with `sample_count = 1` and
broadcasts the single output sample to every output channel.  The output
frame has the input frame's channel count (the source requires
`input.size() == output.size()` and fails otherwise; the model constructs
the output at the input's size, so that guard always passes). -/
noncomputable def correct_pitch_frame (c : PitchCorrector) (input : List ℝ)
    (input_pitch target_pitch correction_strength : ℝ) :
    List ℝ × ProcessingResult × PitchCorrector :=
  if input.length = 0 then
    (input, { success := false }, c)
  else
    let r := correct_pitch c [input.getD 0 0] input_pitch target_pitch correction_strength
    (List.replicate input.length (r.1.getD 0 0), r.2.1, r.2.2)

/-! ### AudioBuffer (audio_buffer.h / audio_buffer.cpp)

A frame is a list of per-channel samples.  The loop conditions of
`AudioBuffer::write` / `AudioBuffer::read` consult `full()` / `empty()`,
which read the *member* index variables; those members are only stored
back after the loop, so the condition is constant for the whole call.
The embedding reproduces that behaviour. -/

structure AudioBuffer where
  capacity : ℕ
  channels : ℕ
  read_pos : ℕ
  write_pos : ℕ
  buffer : List (List ℝ)

/-- The `AudioBuffer` constructor: indices at 0, `capacity` zero-filled
frames of `channels` samples each. -/
def mkAudioBuffer (capacity channels : ℕ) : AudioBuffer :=
  { capacity := capacity
    channels := channels
    read_pos := 0
    write_pos := 0
    buffer := List.replicate capacity (List.replicate channels 0) }

/-- `AudioBuffer::empty`: `read_pos_ == write_pos_`. -/
def AudioBuffer.empty (b : AudioBuffer) : Bool := b.read_pos == b.write_pos

/-- `AudioBuffer::full`: `(write_pos_ + 1) % capacity_ == read_pos_`. -/
def AudioBuffer.full (b : AudioBuffer) : Bool := (b.write_pos + 1) % b.capacity == b.read_pos

/-- `AudioBuffer::available`. -/
def AudioBuffer.available (b : AudioBuffer) : ℕ :=
  if b.read_pos ≤ b.write_pos then b.write_pos - b.read_pos
  else b.capacity - b.read_pos + b.write_pos

/-- `AudioBuffer::space`: `capacity - available - 1` (one slot reserved). -/
def AudioBuffer.space (b : AudioBuffer) : ℕ := b.capacity - b.available - 1

/-- Per-frame copy in `AudioBuffer::write`: channel `ch` of the stored
frame is overwritten for `ch < channels_ && ch < frames[i].size()`. -/
def copy_into_frame (dest src : List ℝ) (channels : ℕ) : List ℝ :=
  dest.mapIdx fun ch v => if ch < channels ∧ ch < src.length then src.getD ch 0 else v

/-- The write loop of `AudioBuffer::write`; `is_full` is the (constant)
value of `full()` over the whole call. Returns
`(written, final write index, final payload)`. -/
def write_loop (is_full : Bool) (capacity channels : ℕ) :
    List (List ℝ) → ℕ → List (List ℝ) → ℕ → ℕ × ℕ × List (List ℝ)
  | [], current, buf, written => (written, current, buf)
  | f :: rest, current, buf, written =>
    if is_full then (written, current, buf)
    else
      write_loop is_full capacity channels rest ((current + 1) % capacity)
        (buf.set current (copy_into_frame (buf.getD current []) f channels)) (written + 1)

/-- `AudioBuffer::write(frames, frame_count)`.  Returns the number of
frames written and the new buffer state. -/
def AudioBuffer.write (b : AudioBuffer) (frames : List (List ℝ)) : ℕ × AudioBuffer :=
  if frames.length = 0 then (0, b)
  else
    let r := write_loop b.full b.capacity b.channels frames b.write_pos b.buffer 0
    (r.1, { b with write_pos := r.2.1, buffer := r.2.2 })

/-- The read loop of `AudioBuffer::read`; `is_empty` is the (constant)
value of `empty()` over the whole call.  Returns the frames read (each a
fresh frame of `channels` samples copied from the payload) and the final
read index. -/
def read_loop (is_empty : Bool) (capacity channels : ℕ) (buf : List (List ℝ)) :
    ℕ → ℕ → List (List ℝ) × ℕ
  | 0, current => ([], current)
  | n + 1, current =>
    if is_empty then ([], current)
    else
      let f := (List.range channels).map fun ch => (buf.getD current []).getD ch 0
      let r := read_loop is_empty capacity channels buf n ((current + 1) % capacity)
      (f :: r.1, r.2)

/-- `AudioBuffer::read(frames, frame_count)`.  Returns the number of
frames read, the frames themselves, and the new buffer state. -/
def AudioBuffer.read (b : AudioBuffer) (count : ℕ) : ℕ × List (List ℝ) × AudioBuffer :=
  if count = 0 then (0, [], b)
  else
    let r := read_loop b.empty b.capacity b.channels b.buffer count b.read_pos
    (r.1.length, r.1, { b with read_pos := r.2 })

/-- `AudioBuffer::clear`. -/
def AudioBuffer.clear (b : AudioBuffer) : AudioBuffer :=
  { b with read_pos := 0, write_pos := 0, buffer := b.buffer.map fun f => f.map fun _ => 0 }

/-- A single-frame operation on the ring buffer: one `write(frames, 1)`
or one `read(frames, 1)` call. -/
inductive BufOp where
  | write
  | read
deriving DecidableEq, BEq

/-- `reads_safe n m ops` holds when, starting after `n` writes and `m`
reads, every `read` in `ops` is issued with strictly more writes than
reads before it — the claim's side condition that reads are never issued
on an empty buffer. -/
def reads_safe : ℕ → ℕ → List BufOp → Bool
  | _, _, [] => true
  | n, m, .write :: rest => reads_safe (n + 1) m rest
  | n, m, .read :: rest => decide (m < n) && reads_safe n (m + 1) rest

/-- Run a sequence of single-frame writes (of the fixed frame `f`) and
reads against the buffer; the Bool records that every operation
succeeded (each write wrote 1 frame, each read read 1 frame). -/
def run_ops (f : List ℝ) : AudioBuffer → List BufOp → Bool × AudioBuffer
  | b, [] => (true, b)
  | b, .write :: rest =>
    let w := b.write [f]
    let r := run_ops f w.2 rest
    ((w.1 == 1) && r.1, r.2)
  | b, .read :: rest =>
    let rd := b.read 1
    let r := run_ops f rd.2.2 rest
    ((rd.1 == 1) && r.1, r.2)

/-- Number of write operations in a sequence. -/
def count_writes : List BufOp → ℕ
  | [] => 0
  | .write :: rest => count_writes rest + 1
  | .read :: rest => count_writes rest

/-- Number of read operations in a sequence. -/
def count_reads : List BufOp → ℕ
  | [] => 0
  | .write :: rest => count_reads rest
  | .read :: rest => count_reads rest + 1

/-! ### AutotuneEngine (autotune_engine.h / autotune_engine.cpp)

The engine owns the detector, corrector and quantizer.  Wall-clock
latency accounting (`latency_history_`, `metrics_`) measures real time
and is outside the embedding; the `initialized_` flag and null-pointer
guards have no counterpart.  The relevant entries of `ProcessingParams`
(`correction_strength`, `quantize_strength`) are engine fields. -/

inductive Mode where
  | PITCH_CORRECTION
  | QUANTIZATION
  | FULL_AUTOTUNE
  | BYPASS
deriving DecidableEq

structure AutotuneEngine where
  sample_rate : ℕ
  buffer_size : ℕ
  channels : ℕ
  mode : Mode
  correction_strength : ℝ
  quantize_strength : ℝ
  current_scale : Scale
  key_center : ℤ
  pitch_detector : PitchDetector
  pitch_corrector : PitchCorrector
  quantizer : Quantizer
  current_pitch : ℝ
  target_pitch : ℝ
  confidence : ℝ

/-- The `PitchCorrector` constructor state:
zeroed registers, envelope coefficients from the default
`ProcessingParams` times, `overlap_size_ = (buffer_size * 2) / 4`. -/
noncomputable def mkPitchCorrector (sample_rate buffer_size : ℕ)
    (attack_time release_time : ℝ) : PitchCorrector :=
  { phase_accumulator := 0
    envelope_follower := 0
    attack_coeff := 1 - Real.exp (-1 / (attack_time * sample_rate))
    release_coeff := 1 - Real.exp (-1 / (release_time * sample_rate))
    overlap_size := buffer_size * 2 / 4 }

/-- The `AutotuneEngine` constructor: FULL_AUTOTUNE mode, MAJOR scale on
key 60, default params (correction 1.0, quantize 0.8, attack 0.01,
release 0.1), freshly constructed components. -/
noncomputable def mkAutotuneEngine (sample_rate buffer_size channels : ℕ) : AutotuneEngine :=
  { sample_rate := sample_rate
    buffer_size := buffer_size
    channels := channels
    mode := .FULL_AUTOTUNE
    correction_strength := 1
    quantize_strength := 8 / 10
    current_scale := .MAJOR
    key_center := 60
    pitch_detector := mkPitchDetector sample_rate buffer_size
    pitch_corrector := mkPitchCorrector sample_rate buffer_size (1 / 100) (1 / 10)
    quantizer := {}
    current_pitch := 0
    target_pitch := 0
    confidence := 0 }

/-- `AutotuneEngine::set_mode`. -/
def set_mode (e : AutotuneEngine) (m : Mode) : AutotuneEngine := { e with mode := m }

/-- `AutotuneEngine::set_scale`. -/
def set_scale (e : AutotuneEngine) (s : Scale) (key_center : ℤ) : AutotuneEngine :=
  { e with current_scale := s, key_center := key_center }

/-- The per-frame downmix rule of `AutotuneEngine::convert_to_mono`. -/
noncomputable def frame_to_mono (f : List ℝ) : ℝ :=
  if f.length = 1 then f.getD 0 0
  else if 2 ≤ f.length then (f.getD 0 0 + f.getD 1 0) * (1 / 2)
  else 0

/-- `AutotuneEngine::convert_to_mono`: downmix the first
`min(frame_count, buffer_size)` frames. -/
noncomputable def convert_to_mono (e : AutotuneEngine) (input : List (List ℝ)) : List ℝ :=
  (input.take e.buffer_size).map frame_to_mono

/-- `AutotuneEngine::calculate_target_pitch`. -/
noncomputable def calculate_target_pitch (e : AutotuneEngine) (detected_pitch : ℝ) : ℝ :=
  if detected_pitch ≤ 0 then detected_pitch
  else e.quantizer.quantize_pitch detected_pitch e.current_scale e.key_center e.quantize_strength

/-- The correction loop of `AutotuneEngine::process_pitch_correction`:
apply the frame-level corrector to each frame, breaking on the first
failure; returns the produced output frames, the last corrector result
(default when the input is empty), and the corrector state. -/
noncomputable def correct_frames (pitch target strength : ℝ) :
    PitchCorrector → List (List ℝ) → List (List ℝ) × ProcessingResult × PitchCorrector
  | c, [] => ([], {}, c)
  | c, frame :: rest =>
    let r := correct_pitch_frame c frame pitch target strength
    if r.2.1.success then
      if rest.isEmpty then ([r.1], r.2.1, r.2.2)
      else
        let rr := correct_frames pitch target strength r.2.2 rest
        (r.1 :: rr.1, rr.2.1, rr.2.2)
    else ([r.1], r.2.1, r.2.2)

/-- `AutotuneEngine::process_pitch_correction`.  Returns
`(output, result, new engine state)`. -/
noncomputable def process_pitch_correction (e : AutotuneEngine) (input : List (List ℝ)) :
    List (List ℝ) × ProcessingResult × AutotuneEngine :=
  if input.length = 0 then ([], { success := false }, e)
  else
    let mono := convert_to_mono e input
    let det := detect_pitch e.pitch_detector mono
    let target := calculate_target_pitch e det.1
    let corr := correct_frames det.1 target e.correction_strength e.pitch_corrector input
    (corr.1,
      { corr.2.1 with
        detected_pitch := det.1
        corrected_pitch := target
        confidence := det.2.1 },
      { e with
        pitch_detector := det.2.2
        pitch_corrector := corr.2.2
        current_pitch := det.1
        target_pitch := target
        confidence := det.2.1 })

/-- `AutotuneEngine::process_quantization`: audio passthrough; the result
is a default `ProcessingResult` with `success = true` (no pitch
detection, no quantizer call). -/
noncomputable def process_quantization (e : AutotuneEngine) (input : List (List ℝ)) :
    List (List ℝ) × ProcessingResult × AutotuneEngine :=
  (input, { success := true }, e)

/-- `AutotuneEngine::process` (traditional, non-ML path).  The
`frame_count == 0` precondition failure is kept; wall-clock metric
updates are outside the embedding.  On the FULL_AUTOTUNE path the output
buffer is left untouched when pitch correction fails; the model returns
`[]` for it. -/
noncomputable def process (e : AutotuneEngine) (input : List (List ℝ)) :
    List (List ℝ) × ProcessingResult × AutotuneEngine :=
  if input.length = 0 then ([], { success := false }, e)
  else
    match e.mode with
    | .PITCH_CORRECTION => process_pitch_correction e input
    | .QUANTIZATION => process_quantization e input
    | .FULL_AUTOTUNE =>
      let pc := process_pitch_correction e input
      if pc.2.1.success then
        let q := process_quantization pc.2.2 pc.1
        (q.1, { pc.2.1 with success := pc.2.1.success && q.2.1.success }, q.2.2)
      else ([], pc.2.1, pc.2.2)
    | .BYPASS => (input, { success := true }, e)

/-! ### Claim-side definition for the nearest-scale-note refinement -/

/-- First-minimizer scan over a candidate list: keep the current best
unless a strictly closer candidate appears, so ties go to the candidate
encountered first. -/
noncomputable def claim_candidate_fold (rem : ℝ) (cands : List ℤ) (c0 : ℤ) : ℤ :=
  cands.foldl
    (fun (best c2 : ℤ) =>
      if fabs (rem - (c2 : ℝ)) < fabs (rem - (best : ℝ)) then c2 else best) c0

/-- The nearest-scale-MIDI computation as the claim words it: octave and
remainder from the key center, candidates `i` and `i + 12` for each
`i` in scan order of the interval list, first equidistant candidate
wins, result `r + 12 * octave + chosen`. -/
noncomputable def claim_nearest_scale_midi (m : ℝ) (I : List ℤ) (r : ℤ) : ℝ :=
  let octave : ℤ := ⌊(m - r) / 12⌋
  let rem : ℝ := (m - r) - 12 * octave
  let candidates := I.flatMap fun i => [i, i + 12]
  (r : ℝ) + 12 * octave + claim_candidate_fold rem candidates.tail (candidates.headD 0)

/-! ### Concrete fixtures used by the counterexamples

An alternating 0/1 mono block whose windowed autocorrelation peaks at
lag 2, and engines at sample rate 880 with 5-sample analysis blocks, so
the detected pitch is 880 / 2 = 440 Hz exactly. -/

/-- Five mono frames `[0], [1], [0], [1], [0]`. -/
noncomputable def test_block : List (List ℝ) := [[0], [1], [0], [1], [0]]

/-- A freshly constructed detector at 880 Hz with window size 5. -/
noncomputable def test_detector : PitchDetector := mkPitchDetector 880 5

/-- An engine in PitchCorrection mode (reachable via the constructor
`(880, 5, 1)`, `set_scale(MAJOR, 61)`, `set_mode(PITCH_CORRECTION)` and
parameters with `quantize_strength = 1`). -/
noncomputable def test_engine_pc : AutotuneEngine :=
  { sample_rate := 880
    buffer_size := 5
    channels := 1
    mode := .PITCH_CORRECTION
    correction_strength := 1
    quantize_strength := 1
    current_scale := .MAJOR
    key_center := 61
    pitch_detector := test_detector
    pitch_corrector := mkPitchCorrector 880 5 (1 / 100) (1 / 10)
    quantizer := {}
    current_pitch := 0
    target_pitch := 0
    confidence := 0 }

/-- The same engine switched to Quantization mode. -/
noncomputable def test_engine_q : AutotuneEngine := { test_engine_pc with mode := .QUANTIZATION }

/-! ### Theorems -/

/-- C5: `quantize_pitch` returns `input_hz` unchanged whenever
`input_hz <= 0` or `strength <= 0`; in particular strength 0 is the
identity and input 0 maps to 0, for every scale and key center. -/
theorem quantize_pitch_degenerate (q : Quantizer) (f : ℝ) (scale : Scale)
    (key_center : ℤ) (strength : ℝ) :
    (f ≤ 0 ∨ strength ≤ 0 → q.quantize_pitch f scale key_center strength = f) ∧
    q.quantize_pitch f scale key_center 0 = f ∧
    q.quantize_pitch 0 scale key_center strength = 0 := by
  refine ⟨fun h => ?_, ?_, ?_⟩
  · rw [Quantizer.quantize_pitch, if_pos h]
  · rw [Quantizer.quantize_pitch, if_pos (Or.inr le_rfl)]
  · rw [Quantizer.quantize_pitch, if_pos (Or.inl le_rfl)]

/-- Witness for C5 at concrete inputs. -/
theorem quantize_pitch_degenerate_witness :
    ({} : Quantizer).quantize_pitch (-5) .MAJOR 60 1 = -5 ∧
    ({} : Quantizer).quantize_pitch 440 .MAJOR 60 0 = 440 ∧
    ({} : Quantizer).quantize_pitch 0 .MAJOR 60 1 = 0 :=
  ⟨(quantize_pitch_degenerate {} (-5) .MAJOR 60 1).1 (Or.inl (by norm_num)),
   (quantize_pitch_degenerate {} 440 .MAJOR 60 0).2.1,
   (quantize_pitch_degenerate {} 0 .MAJOR 60 1).2.2⟩

/-- C10: `frequency_to_midi` returns 0 for every `f <= 0` and
`69 + 12 * log2(f / 440)` for every `f > 0`. -/
theorem frequency_to_midi_spec (f : ℝ) :
    (f ≤ 0 → frequency_to_midi f = 0) ∧
    (0 < f → frequency_to_midi f = 69 + 12 * Real.logb 2 (f / 440)) := by
  refine ⟨fun h => ?_, fun h => ?_⟩
  · rw [frequency_to_midi, if_pos h]
  · rw [frequency_to_midi, if_neg (not_le.mpr h)]

/-- Witness for C10 at `f = -1` and `f = 440`. -/
theorem frequency_to_midi_spec_witness :
    frequency_to_midi (-1) = 0 ∧ frequency_to_midi 440 = 69 := by
  refine ⟨(frequency_to_midi_spec (-1)).1 (by norm_num), ?_⟩
  rw [(frequency_to_midi_spec 440).2 (by norm_num)]
  norm_num [Real.logb_one]

/-- C9: with an empty custom interval list, `quantize_pitch` on the
Custom scale performs no quantization toward any scale note: for every
positive input and strength it returns
`midi_to_frequency (frequency_to_midi input_hz)`. -/
theorem quantize_pitch_custom_empty (q : Quantizer) (key_center : ℤ) (f strength : ℝ)
    (hq : q.custom_scale_intervals = []) (hf : 0 < f) (hs : 0 < strength) :
    q.quantize_pitch f .CUSTOM key_center strength =
      midi_to_frequency (frequency_to_midi f) := by
  rw [Quantizer.quantize_pitch, if_neg (by push_neg; exact ⟨hf, hs⟩)]
  simp [Quantizer.get_scale_intervals, hq, find_nearest_scale_note]

/-- Witness for C9 at 440 Hz, strength 1, fresh quantizer. -/
theorem quantize_pitch_custom_empty_witness :
    ({} : Quantizer).quantize_pitch 440 .CUSTOM 60 1 =
      midi_to_frequency (frequency_to_midi 440) :=
  quantize_pitch_custom_empty {} 60 440 1 rfl (by norm_num) (by norm_num)

/-- C3 counterexample: `set_custom_scale [14, 2, 2]` stores `[2, 2, 14]`,
which retains the duplicate 2 and the out-of-range value 14 — the stored
list is neither duplicate-free nor mod-12 reduced into [0, 11]. -/
theorem set_custom_scale_counterexample :
    (Quantizer.set_custom_scale {} [14, 2, 2]).custom_scale_intervals = [2, 2, 14] ∧
    ¬ (Quantizer.set_custom_scale {} [14, 2, 2]).custom_scale_intervals.Nodup ∧
    ¬ (∀ x ∈ (Quantizer.set_custom_scale {} [14, 2, 2]).custom_scale_intervals,
        0 ≤ x ∧ x ≤ 11) := by
  refine ⟨by decide, by decide, by decide⟩

/-- C3 amended: `set_custom_scale` stores the client-supplied intervals
sorted ascending — a permutation of the input, duplicates retained,
values unchanged (no mod-12 reduction) — and `get_scale_intervals` on the
Custom scale returns exactly this stored list, which is what subsequent
`quantize_pitch` calls use. -/
theorem set_custom_scale_spec (q : Quantizer) (intervals : List ℤ) :
    (q.set_custom_scale intervals).custom_scale_intervals.Sorted (· ≤ ·) ∧
    List.Perm (q.set_custom_scale intervals).custom_scale_intervals intervals ∧
    (q.set_custom_scale intervals).get_scale_intervals .CUSTOM =
      (q.set_custom_scale intervals).custom_scale_intervals :=
  ⟨List.sorted_insertionSort _ _, List.perm_insertionSort _ _, rfl⟩

lemma claim_candidate_fold_append (rem : ℝ) (l1 l2 : List ℤ) (b : ℤ) :
    claim_candidate_fold rem (l1 ++ l2) b =
      claim_candidate_fold rem l2 (claim_candidate_fold rem l1 b) := by
  simp [claim_candidate_fold, List.foldl_append]

lemma nearest_scan_step_eq (rem : ℝ) (b i : ℤ) :
    nearest_scan_step rem ((b : ℝ), fabs (rem - (b : ℝ))) i =
      ((claim_candidate_fold rem [i, i + 12] b : ℝ),
       fabs (rem - (claim_candidate_fold rem [i, i + 12] b : ℝ))) := by
  have hcast : ((i + 12 : ℤ) : ℝ) = (i : ℝ) + 12 := by push_cast; ring
  simp only [nearest_scan_step, claim_candidate_fold, List.foldl_cons, List.foldl_nil, hcast]
  by_cases h1 : fabs (rem - (i : ℝ)) < fabs (rem - (b : ℝ))
  · by_cases h2 : fabs (rem - ((i : ℝ) + 12)) < fabs (rem - (i : ℝ))
    · simp [h1, h2, hcast]
    · simp [h1, h2, hcast]
  · by_cases h2 : fabs (rem - ((i : ℝ) + 12)) < fabs (rem - (b : ℝ))
    · simp [h1, h2, hcast]
    · simp [h1, h2, hcast]

lemma nearest_scan_fold_eq (rem : ℝ) :
    ∀ (l : List ℤ) (b : ℤ),
      l.foldl (nearest_scan_step rem) ((b : ℝ), fabs (rem - (b : ℝ))) =
        ((claim_candidate_fold rem (l.flatMap fun i => [i, i + 12]) b : ℝ),
         fabs (rem - (claim_candidate_fold rem (l.flatMap fun i => [i, i + 12]) b : ℝ))) := by
  intro l
  induction l with
  | nil => intro b; simp [claim_candidate_fold]
  | cons i t ih =>
    intro b
    rw [List.foldl_cons, nearest_scan_step_eq, ih]
    rw [List.flatMap_cons, claim_candidate_fold_append]

/-- C4: for every MIDI input `m > 0`, non-empty interval list and root,
`find_nearest_scale_note` (the computation both `quantize_pitch` and
`get_nearest_note` invoke) returns `r + 12 * octave + c`, where
`octave = floor((m - r) / 12)`, `rem = (m - r) - 12 * octave`, and `c`
is the candidate among `i` and `i + 12`, for `i` in scan order of the
interval list, minimizing `|rem - c|` — ties broken in favour of the
candidate encountered first. -/
theorem find_nearest_scale_note_spec (m : ℝ) (I : List ℤ) (r : ℤ)
    (hm : 0 < m) (hI : I ≠ []) :
    find_nearest_scale_note m I r = claim_nearest_scale_midi m I r := by
  cases I with
  | nil => exact absurd rfl hI
  | cons i0 t =>
    have hrem : m - (r : ℝ) - (⌊(m - (r : ℝ)) / 12⌋ : ℤ) * 12 =
        m - (r : ℝ) - 12 * (⌊(m - (r : ℝ)) / 12⌋ : ℤ) := by ring
    simp only [find_nearest_scale_note, claim_nearest_scale_midi, List.flatMap_cons,
      List.cons_append, List.nil_append, List.headD_cons, List.tail_cons, hrem]
    rw [nearest_scan_fold_eq]
    rw [List.flatMap_cons, claim_candidate_fold_append]
    simp only [claim_candidate_fold, List.foldl_cons, List.foldl_nil, ite_self]
    ring

/-- Witness for C4 at `m = 2`, intervals `[0]`, root 0. -/
theorem find_nearest_scale_note_spec_witness :
    find_nearest_scale_note 2 [0] 0 = claim_nearest_scale_midi 2 [0] 0 :=
  find_nearest_scale_note_spec 2 [0] 0 (by norm_num) (by simp)

/-- C7: sample-level `correct_pitch` with a non-empty input block and
`input_pitch <= 0` or `correction_strength <= 0` copies the input to the
output, reports `success = true` with `confidence = 0`, and leaves the
corrector state (phase accumulator and envelope follower) unchanged. -/
theorem correct_pitch_passthrough (c : PitchCorrector) (input : List ℝ)
    (input_pitch target_pitch strength : ℝ) (hne : input ≠ [])
    (h : input_pitch ≤ 0 ∨ strength ≤ 0) :
    correct_pitch c input input_pitch target_pitch strength =
      (input,
       { success := true
         detected_pitch := input_pitch
         corrected_pitch := target_pitch
         confidence := 0
         latency_samples := 0 }, c) := by
  rw [correct_pitch, if_neg (by simpa using hne)]
  simp only [if_pos h]

/-- Witness for C7: one-sample block, `input_pitch = 0`, strength 1. -/
theorem correct_pitch_passthrough_witness :
    correct_pitch ⟨0, 0, 0, 0, 0⟩ [1] 0 440 1 =
      ([1],
       { success := true
         detected_pitch := 0
         corrected_pitch := 440
         confidence := 0
         latency_samples := 0 }, ⟨0, 0, 0, 0, 0⟩) :=
  correct_pitch_passthrough ⟨0, 0, 0, 0, 0⟩ [1] 0 440 1 (by simp) (Or.inl le_rfl)

lemma write_one (b : AudioBuffer) (f : List ℝ) (hfull : b.full = false) :
    b.write [f] = (1, { b with
      write_pos := (b.write_pos + 1) % b.capacity
      buffer := b.buffer.set b.write_pos
        (copy_into_frame (b.buffer.getD b.write_pos []) f b.channels) }) := by
  rw [AudioBuffer.write]
  simp [write_loop, hfull]

lemma read_one (b : AudioBuffer) (hemp : b.empty = false) :
    b.read 1 = (1,
      [(List.range b.channels).map fun ch => (b.buffer.getD b.read_pos []).getD ch 0],
      { b with read_pos := (b.read_pos + 1) % b.capacity }) := by
  rw [AudioBuffer.read]
  simp [read_loop, hemp]

lemma reads_safe_le (ops : List BufOp) :
    ∀ n m, reads_safe n m ops = true → m ≤ n →
      m + count_reads ops ≤ n + count_writes ops := by
  induction ops with
  | nil => intro n m _ h; simp [count_reads, count_writes]; omega
  | cons op rest ih =>
    intro n m hs h
    cases op with
    | write =>
      have := ih (n + 1) m (by simpa [reads_safe] using hs) (by omega)
      simp only [count_reads, count_writes] at this ⊢
      omega
    | read =>
      simp only [reads_safe, Bool.and_eq_true, decide_eq_true_eq] at hs
      have := ih n (m + 1) hs.2 (by omega)
      simp only [count_reads, count_writes] at this ⊢
      omega

lemma run_ops_spec (f : List ℝ) (C ch : ℕ) (ops : List BufOp) :
    ∀ (n m : ℕ) (buf : List (List ℝ)),
      m ≤ n → n + count_writes ops < C → reads_safe n m ops = true →
      ∃ buf', run_ops f ⟨C, ch, m, n, buf⟩ ops =
        (true, ⟨C, ch, m + count_reads ops, n + count_writes ops, buf'⟩) := by
  induction ops with
  | nil =>
    intro n m buf _ _ _
    exact ⟨buf, by simp [run_ops, count_reads, count_writes]⟩
  | cons op rest ih =>
    intro n m buf hmn hlt hsafe
    cases op with
    | write =>
      have hn1 : n + 1 < C := by simp only [count_writes] at hlt; omega
      have hfull : (⟨C, ch, m, n, buf⟩ : AudioBuffer).full = false := by
        simp only [AudioBuffer.full, Nat.mod_eq_of_lt hn1, beq_eq_false_iff_ne, ne_eq]
        omega
      obtain ⟨buf', hrec⟩ := ih (n + 1) m
        (buf.set n (copy_into_frame (buf.getD n []) f ch)) (by omega)
        (by simp only [count_writes] at hlt ⊢; omega)
        (by simpa [reads_safe] using hsafe)
      refine ⟨buf', ?_⟩
      have e2 : n + count_writes (BufOp.write :: rest) = n + 1 + count_writes rest := by
        simp only [count_writes]; omega
      have e1 : m + count_reads (BufOp.write :: rest) = m + count_reads rest := rfl
      rw [e1, e2]
      simp only [run_ops, write_one _ _ hfull, Nat.mod_eq_of_lt hn1]
      rw [hrec]
      simp
    | read =>
      simp only [reads_safe, Bool.and_eq_true, decide_eq_true_eq] at hsafe
      have hm1 : m + 1 < C := by simp only [count_writes] at hlt; omega
      have hemp : (⟨C, ch, m, n, buf⟩ : AudioBuffer).empty = false := by
        simp only [AudioBuffer.empty, beq_eq_false_iff_ne, ne_eq]
        omega
      obtain ⟨buf', hrec⟩ := ih n (m + 1) buf (by omega)
        (by simp only [count_writes] at hlt ⊢; omega) hsafe.2
      refine ⟨buf', ?_⟩
      have e2 : n + count_writes (BufOp.read :: rest) = n + count_writes rest := rfl
      have e1 : m + count_reads (BufOp.read :: rest) = m + 1 + count_reads rest := by
        simp only [count_reads]; omega
      rw [e1, e2]
      simp only [run_ops, read_one _ hemp, Nat.mod_eq_of_lt hm1]
      rw [hrec]
      simp

/-- C8: from a freshly constructed ring buffer of capacity `C > 0`, any
interleaving of `N` single-frame writes and `M` single-frame reads with
`N <= C - 1` and reads never issued on an empty buffer has every
operation succeed, ends with `available() = N - M` and with the write and
read indices advanced to `N mod C` and `M mod C`; moreover, for every
buffer state, `empty()` holds iff `write_pos = read_pos` and `full()`
holds iff `(write_pos + 1) mod capacity = read_pos`, and a single write
or read advances its index by one modulo the capacity. -/
theorem ring_buffer_spec (C ch : ℕ) (f : List ℝ) (ops : List BufOp)
    (hC : 0 < C) (hN : count_writes ops ≤ C - 1) (hsafe : reads_safe 0 0 ops = true) :
    ((run_ops f (mkAudioBuffer C ch) ops).1 = true ∧
     (run_ops f (mkAudioBuffer C ch) ops).2.available =
       count_writes ops - count_reads ops ∧
     (run_ops f (mkAudioBuffer C ch) ops).2.write_pos = count_writes ops % C ∧
     (run_ops f (mkAudioBuffer C ch) ops).2.read_pos = count_reads ops % C) ∧
    (∀ b : AudioBuffer,
      (b.empty = true ↔ b.write_pos = b.read_pos) ∧
      (b.full = true ↔ (b.write_pos + 1) % b.capacity = b.read_pos)) ∧
    (∀ b : AudioBuffer, b.full = false →
      (b.write [f]).2.write_pos = (b.write_pos + 1) % b.capacity) ∧
    (∀ b : AudioBuffer, b.empty = false →
      (b.read 1).2.2.read_pos = (b.read_pos + 1) % b.capacity) := by
  have hMN := reads_safe_le ops 0 0 hsafe le_rfl
  obtain ⟨buf', heq⟩ := run_ops_spec f C ch ops 0 0
    (List.replicate C (List.replicate ch 0)) le_rfl (by omega) hsafe
  have hmk : mkAudioBuffer C ch =
      (⟨C, ch, 0, 0, List.replicate C (List.replicate ch 0)⟩ : AudioBuffer) := rfl
  refine ⟨?_, ?_, ?_, ?_⟩
  · rw [hmk, heq]
    have hw : count_writes ops < C := by omega
    have hr : count_reads ops < C := by omega
    refine ⟨rfl, ?_, ?_, ?_⟩
    · simp only [AudioBuffer.available]
      rw [if_pos (by omega : 0 + count_reads ops ≤ 0 + count_writes ops)]
      omega
    · rw [Nat.mod_eq_of_lt hw]; exact Nat.zero_add _
    · rw [Nat.mod_eq_of_lt hr]; exact Nat.zero_add _
  · intro b
    constructor
    · simp only [AudioBuffer.empty, beq_iff_eq]
      exact eq_comm
    · simp only [AudioBuffer.full, beq_iff_eq]
  · intro b hb
    rw [write_one _ _ hb]
  · intro b hb
    rw [read_one _ hb]

/-- Witness for C8: capacity 3, two writes then one read; every
operation succeeds and one frame remains available. -/
theorem ring_buffer_spec_witness :
    (run_ops [] (mkAudioBuffer 3 0) [.write, .write, .read]).1 = true ∧
    (run_ops [] (mkAudioBuffer 3 0) [.write, .write, .read]).2.available = 1 := by
  have h := ring_buffer_spec 3 0 [] [.write, .write, .read]
    (by norm_num) (by decide) (by decide)
  exact ⟨h.1.1, h.1.2.1.trans (by decide)⟩

/-- C6: `detect_pitch` returns pitch 0 and confidence 0 (with the state
untouched) when the block length exceeds the window size, when the
autocorrelation-peak confidence is below the configured threshold, and
when the lag-derived frequency `sample_rate / L` falls outside
`[min_frequency, max_frequency]`. -/
theorem detect_pitch_rejections (d : PitchDetector) (samples : List ℝ) :
    (d.buffer_size < samples.length → detect_pitch d samples = (0, 0, d)) ∧
    (0 < samples.length → samples.length ≤ d.buffer_size →
      (find_autocorr_peak d (compute_autocorrelation (apply_window d samples))
          samples.length).2 < d.confidence_threshold →
      detect_pitch d samples = (0, 0, d)) ∧
    (0 < samples.length → samples.length ≤ d.buffer_size →
      ((d.sample_rate : ℝ) /
          (((find_autocorr_peak d (compute_autocorrelation (apply_window d samples))
            samples.length).1 : ℕ) : ℝ) < d.min_frequency ∨
        d.max_frequency < (d.sample_rate : ℝ) /
          (((find_autocorr_peak d (compute_autocorrelation (apply_window d samples))
            samples.length).1 : ℕ) : ℝ)) →
      detect_pitch d samples = (0, 0, d)) := by
  refine ⟨fun h => ?_, fun h0 hle hconf => ?_, fun h0 hle hfreq => ?_⟩
  · simp only [detect_pitch]
    rw [if_pos (Or.inr h)]
  · simp only [detect_pitch]
    rw [if_neg (by omega), if_pos (Or.inl hconf)]
  · simp only [detect_pitch]
    rw [if_neg (by omega)]
    by_cases hc : (find_autocorr_peak d (compute_autocorrelation (apply_window d samples))
        samples.length).2 < d.confidence_threshold ∨
        (find_autocorr_peak d (compute_autocorrelation (apply_window d samples))
          samples.length).1 = 0
    · rw [if_pos hc]
    · rw [if_neg hc]
      push_neg at hc
      rw [lag_to_frequency, if_neg hc.2, if_pos hfreq]

/-- Witness for C6: a window-2 estimator at 100 Hz rejects a 3-sample
block (too long) and a 2-sample zero block (empty valid lag range, hence
confidence 0 below the 0.3 threshold, and lag 0 gives frequency 0 below
the 80 Hz minimum). -/
theorem detect_pitch_rejections_witness :
    detect_pitch (mkPitchDetector 100 2) [0, 0, 0] = (0, 0, mkPitchDetector 100 2) ∧
    detect_pitch (mkPitchDetector 100 2) [0, 0] = (0, 0, mkPitchDetector 100 2) := by
  have hpeak : ∀ r : List ℝ, find_autocorr_peak (mkPitchDetector 100 2) r 2 = (0, 0) := by
    intro r
    norm_num [find_autocorr_peak, mkPitchDetector]
  refine ⟨(detect_pitch_rejections _ _).1 (by norm_num [mkPitchDetector]), ?_⟩
  refine (detect_pitch_rejections (mkPitchDetector 100 2) [0, 0]).2.1 (by norm_num)
    (by norm_num [mkPitchDetector]) ?_
  rw [show ([0, 0] : List ℝ).length = 2 from rfl, hpeak]
  norm_num [mkPitchDetector]

lemma hanning_window_five : hanning_window 5 = [0, 1 / 2, 1, 1 / 2, 0] := by
  have h1 : 2 * Real.pi / 4 = Real.pi / 2 := by ring
  have h2 : 2 * Real.pi * (2 : ℝ) / 4 = Real.pi := by ring
  have h3 : 2 * Real.pi * (3 : ℝ) / 4 = Real.pi / 2 + Real.pi := by ring
  have h4 : 2 * Real.pi * (4 : ℝ) / 4 = 2 * Real.pi := by ring
  rw [hanning_window, show List.range 5 = [0, 1, 2, 3, 4] from rfl]
  simp only [List.map_cons, List.map_nil]
  norm_num [h1, h2, h3, h4, Real.cos_pi_div_two, Real.cos_pi, Real.cos_two_pi,
    Real.cos_add_pi]

lemma compute_autocorrelation_five (a b c d e : ℝ) :
    compute_autocorrelation [a, b, c, d, e] =
      [a * a + b * b + c * c + d * d + e * e,
       a * b + b * c + c * d + d * e,
       a * c + b * d + c * e,
       a * d + b * e,
       a * e] := by
  rw [compute_autocorrelation, show ([a, b, c, d, e] : List ℝ).length = 5 from rfl,
    show List.range 5 = [0, 1, 2, 3, 4] from rfl]
  norm_num [show List.range 5 = [0, 1, 2, 3, 4] from rfl,
    show List.range 4 = [0, 1, 2, 3] from rfl,
    show List.range 3 = [0, 1, 2] from rfl,
    show List.range 2 = [0, 1] from rfl,
    show List.range 1 = [0] from rfl,
    show ∀ x : ℝ, List.getD [a, b, c, d, e] 0 x = a from fun _ => rfl,
    show ∀ x : ℝ, List.getD [a, b, c, d, e] 1 x = b from fun _ => rfl,
    show ∀ x : ℝ, List.getD [a, b, c, d, e] 2 x = c from fun _ => rfl,
    show ∀ x : ℝ, List.getD [a, b, c, d, e] 3 x = d from fun _ => rfl,
    show ∀ x : ℝ, List.getD [a, b, c, d, e] 4 x = e from fun _ => rfl]
  ring_nf
  exact ⟨trivial, trivial, trivial⟩

lemma apply_window_eval :
    apply_window test_detector [0, 1, 0, 1, 0] = [0, 1 / 2, 0, 1 / 2, 0] := by
  rw [apply_window, show test_detector.window = hanning_window 5 from rfl,
    hanning_window_five]
  norm_num

lemma autocorr_eval :
    compute_autocorrelation [0, 1 / 2, 0, 1 / 2, 0] = [1 / 2, 0, 1 / 4, 0, 0] := by
  rw [compute_autocorrelation_five]
  norm_num

lemma peak_eval :
    find_autocorr_peak test_detector [1 / 2, 0, 1 / 4, 0, 0] 5 = (2, 1 / 2) := by
  rw [find_autocorr_peak]
  norm_num [test_detector, mkPitchDetector, peak_scan, clampR,
    show List.range' 2 3 = [2, 3, 4] from rfl,
    show ∀ x : ℝ, List.getD [(1 : ℝ) / 2, 0, 1 / 4, 0, 0] 0 x = 1 / 2 from fun _ => rfl,
    show ∀ x : ℝ, List.getD [(1 : ℝ) / 2, 0, 1 / 4, 0, 0] 1 x = 0 from fun _ => rfl,
    show ∀ x : ℝ, List.getD [(1 : ℝ) / 2, 0, 1 / 4, 0, 0] 2 x = 1 / 4 from fun _ => rfl,
    show ∀ x : ℝ, List.getD [(1 : ℝ) / 2, 0, 1 / 4, 0, 0] 3 x = 0 from fun _ => rfl,
    show ∀ x : ℝ, List.getD [(1 : ℝ) / 2, 0, 1 / 4, 0, 0] 4 x = 0 from fun _ => rfl]

lemma detect_eval :
    detect_pitch test_detector [0, 1, 0, 1, 0] =
      (440, 1 / 2, { test_detector with previous_pitch := 440 }) := by
  simp only [detect_pitch, show ([0, 1, 0, 1, 0] : List ℝ).length = 5 from rfl,
    apply_window_eval, autocorr_eval, peak_eval]
  norm_num [test_detector, mkPitchDetector, lag_to_frequency, smooth_pitch]

lemma mono_eval :
    convert_to_mono test_engine_pc test_block = [0, 1, 0, 1, 0] := by
  rw [convert_to_mono,
    show test_engine_pc.buffer_size = 5 from rfl,
    show test_block.take 5 = [[0], [1], [0], [1], [0]] from rfl]
  norm_num [frame_to_mono]

lemma mono_eval_q :
    convert_to_mono test_engine_q test_block = [0, 1, 0, 1, 0] := by
  rw [convert_to_mono,
    show test_engine_q.buffer_size = 5 from rfl,
    show test_block.take 5 = [[0], [1], [0], [1], [0]] from rfl]
  norm_num [frame_to_mono]

lemma frequency_to_midi_440 : frequency_to_midi 440 = 69 := by
  rw [frequency_to_midi, if_neg (by norm_num)]
  norm_num [Real.logb_one]

lemma find_nearest_69_major_61 :
    find_nearest_scale_note 69 [0, 2, 4, 5, 7, 9, 11] 61 = 68 := by
  simp only [find_nearest_scale_note, List.foldl_cons, List.foldl_nil]
  norm_num [nearest_scan_step, fabs]

lemma quantize_eval :
    ({} : Quantizer).quantize_pitch 440 Scale.MAJOR 61 1 =
      440 * (2 : ℝ) ^ (-(1 : ℝ) / 12) := by
  simp only [Quantizer.quantize_pitch, Quantizer.get_scale_intervals, scale_intervals_table]
  rw [if_neg (by norm_num), frequency_to_midi_440, find_nearest_69_major_61]
  rw [midi_to_frequency]
  norm_num

/-- C1 amended: in PitchCorrection mode, `process` downmixes to mono and
estimates the pitch, but the target it reports as `corrected_pitch` is
`calculate_target_pitch` of the detected pitch — which, for a positive
detection, is `quantize_pitch(detected, current scale, key center,
quantize_strength)`, the same quantized target FullAutotune uses — and
the output is produced by the per-frame resynthesizer loop on that
target.  `corrected_pitch = detected_pitch` only holds in degenerate
cases (no pitch, zero quantize strength, or a quantizer fixed point). -/
theorem pitch_correction_mode_spec (e : AutotuneEngine) (input : List (List ℝ))
    (hmode : e.mode = .PITCH_CORRECTION) (hne : input ≠ []) :
    (process e input).2.1.detected_pitch =
      (detect_pitch e.pitch_detector (convert_to_mono e input)).1 ∧
    (process e input).2.1.corrected_pitch =
      calculate_target_pitch e
        (detect_pitch e.pitch_detector (convert_to_mono e input)).1 ∧
    (∀ p : ℝ, 0 < p → calculate_target_pitch e p =
      e.quantizer.quantize_pitch p e.current_scale e.key_center e.quantize_strength) ∧
    (process e input).1 =
      (correct_frames (detect_pitch e.pitch_detector (convert_to_mono e input)).1
        (calculate_target_pitch e
          (detect_pitch e.pitch_detector (convert_to_mono e input)).1)
        e.correction_strength e.pitch_corrector input).1 := by
  have hproc : process e input = process_pitch_correction e input := by
    rw [process, if_neg (by simpa using hne), hmode]
  rw [hproc]
  simp only [process_pitch_correction]
  rw [if_neg (by simpa using hne)]
  refine ⟨rfl, rfl, fun p hp => ?_, rfl⟩
  rw [calculate_target_pitch, if_neg (not_le.mpr hp)]

/-- Witness for the amended C1 at the concrete test engine and block. -/
theorem pitch_correction_mode_spec_witness :
    (process test_engine_pc test_block).2.1.detected_pitch =
      (detect_pitch test_engine_pc.pitch_detector
        (convert_to_mono test_engine_pc test_block)).1 ∧
    (process test_engine_pc test_block).2.1.corrected_pitch =
      calculate_target_pitch test_engine_pc
        (detect_pitch test_engine_pc.pitch_detector
          (convert_to_mono test_engine_pc test_block)).1 ∧
    (∀ p : ℝ, 0 < p → calculate_target_pitch test_engine_pc p =
      test_engine_pc.quantizer.quantize_pitch p test_engine_pc.current_scale
        test_engine_pc.key_center test_engine_pc.quantize_strength) ∧
    (process test_engine_pc test_block).1 =
      (correct_frames
        (detect_pitch test_engine_pc.pitch_detector
          (convert_to_mono test_engine_pc test_block)).1
        (calculate_target_pitch test_engine_pc
          (detect_pitch test_engine_pc.pitch_detector
            (convert_to_mono test_engine_pc test_block)).1)
        test_engine_pc.correction_strength test_engine_pc.pitch_corrector test_block).1 :=
  pitch_correction_mode_spec test_engine_pc test_block rfl (by simp [test_block])

/-- C1 counterexample: for the engine at 880 Hz / 5-sample blocks with
MAJOR scale on key 61 and quantize strength 1 in PitchCorrection mode,
the alternating test block is detected at 440 Hz but the result's
corrected pitch is `440 * 2 ^ (-1/12)` (the quantized target), which is
not the detected pitch — PitchCorrection mode does apply quantization. -/
theorem pitch_correction_mode_counterexample :
    (process test_engine_pc test_block).2.1.corrected_pitch ≠
      (process test_engine_pc test_block).2.1.detected_pitch := by
  have hproc : process test_engine_pc test_block =
      process_pitch_correction test_engine_pc test_block := by
    rw [process, if_neg (by norm_num [test_block]),
      show test_engine_pc.mode = Mode.PITCH_CORRECTION from rfl]
  have hdet : detect_pitch test_engine_pc.pitch_detector
      (convert_to_mono test_engine_pc test_block) =
      (440, 1 / 2, { test_detector with previous_pitch := 440 }) := by
    rw [show test_engine_pc.pitch_detector = test_detector from rfl, mono_eval, detect_eval]
  have htarget : calculate_target_pitch test_engine_pc 440 =
      440 * (2 : ℝ) ^ (-(1 : ℝ) / 12) := by
    rw [calculate_target_pitch, if_neg (by norm_num)]
    exact quantize_eval
  have hd : (process test_engine_pc test_block).2.1.detected_pitch = 440 := by
    rw [hproc]
    simp only [process_pitch_correction]
    rw [if_neg (by norm_num [test_block])]
    simp only [hdet]
  have hc : (process test_engine_pc test_block).2.1.corrected_pitch =
      440 * (2 : ℝ) ^ (-(1 : ℝ) / 12) := by
    rw [hproc]
    simp only [process_pitch_correction]
    rw [if_neg (by norm_num [test_block])]
    simp only [hdet]
    exact htarget
  rw [hd, hc]
  have hx : (2 : ℝ) ^ (-(1 : ℝ) / 12) < 1 :=
    Real.rpow_lt_one_of_one_lt_of_neg (by norm_num) (by norm_num)
  exact ne_of_lt (by nlinarith)

/-- C2 amended: in Quantization mode, `process` copies the input frames
verbatim to the output, but the returned ProcessingResult is a default
result with `success = true`: `detected_pitch`, `corrected_pitch` and
`confidence` are all 0 — no pitch detection and no quantizer call
happens in this mode. -/
theorem quantization_mode_spec (e : AutotuneEngine) (input : List (List ℝ))
    (hmode : e.mode = .QUANTIZATION) (hne : input ≠ []) :
    process e input =
      (input,
       { success := true
         detected_pitch := 0
         corrected_pitch := 0
         confidence := 0
         latency_samples := 0 }, e) := by
  rw [process, if_neg (by simpa using hne), hmode]
  rfl

/-- Witness for the amended C2 at the concrete test engine and block. -/
theorem quantization_mode_spec_witness :
    process test_engine_q test_block =
      (test_block,
       { success := true
         detected_pitch := 0
         corrected_pitch := 0
         confidence := 0
         latency_samples := 0 }, test_engine_q) :=
  quantization_mode_spec test_engine_q test_block rfl (by simp [test_block])

/-- C2 counterexample: in Quantization mode the result does not report
the pitch detected from the block: on the alternating test block the
engine's own detector detects 440 Hz, yet `process` reports
`detected_pitch = 0` and `corrected_pitch = 0`. -/
theorem quantization_mode_counterexample :
    (process test_engine_q test_block).2.1.detected_pitch = 0 ∧
    (process test_engine_q test_block).2.1.corrected_pitch = 0 ∧
    (detect_pitch test_engine_q.pitch_detector
      (convert_to_mono test_engine_q test_block)).1 = 440 ∧
    (440 : ℝ) ≠ 0 := by
  refine ⟨rfl, rfl, ?_, by norm_num⟩
  rw [show test_engine_q.pitch_detector = test_detector from rfl, mono_eval_q, detect_eval]

end Autotune
